import Mathlib

/-!
Verification development for the daisy blockchain node.

The Go sources are shallowly embedded: pure functions become Lean functions,
the SQLite-backed system store becomes an explicit record of table rows that
is threaded through the state-mutating operations, and fallible operations
return `Except String`.  Cryptographic primitives (SHA-256, PKIX marshalling,
ECDSA verification) and the JSON parser are treated as abstract parameters
collected in a `CryptoModel`; everything built on top of them is translated
from the source.
-/

namespace Daisy

/-! ### Bytes and hex encoding (encoding/hex) -/

/-- A Go `[]byte` value; each element is a byte value `0 ≤ b < 256`. -/
abbrev Bytes := List Nat

/-- The hex digit table used by `hex.EncodeToString` (`hextable`), as a lookup.
Indices ≥ 16 never occur for byte nibbles; the default is only for totality. -/
def hexCharOfNat (n : Nat) : Char :=
  "0123456789abcdef".data.getD n '0'

/-- `hex.EncodeToString`: high nibble first, then low nibble, lowercase. -/
def hexEncode (b : Bytes) : String :=
  ⟨b.foldr (fun x acc => hexCharOfNat (x / 16) :: hexCharOfNat (x % 16) :: acc) []⟩

/-- Value of one hex digit character, accepting both cases as `hex.DecodeString` does. -/
def hexDigitVal (c : Char) : Option Nat :=
  if '0' ≤ c ∧ c ≤ '9' then some (c.toNat - '0'.toNat)
  else if 'a' ≤ c ∧ c ≤ 'f' then some (c.toNat - 'a'.toNat + 10)
  else if 'A' ≤ c ∧ c ≤ 'F' then some (c.toNat - 'A'.toNat + 10)
  else none

/-- `hex.DecodeString` on a character list: fails on odd length or a non-hex digit. -/
def hexDecodeChars : List Char → Option Bytes
  | [] => some []
  | [_] => none
  | c1 :: c2 :: rest =>
    match hexDigitVal c1, hexDigitVal c2, hexDecodeChars rest with
    | some hi, some lo, some tl => some ((hi * 16 + lo) :: tl)
    | _, _, _ => none

/-- `hex.DecodeString`. -/
def hexDecode (s : String) : Option Bytes :=
  hexDecodeChars s.data

/-! ### The abstract cryptographic / environment model

ECDSA P-256, SHA-256, x509 encodings and the JSON parser are primitives the
program calls into; they are modelled as opaque parameters.  Public keys are
identified by an abstract `Nat` tag (the working representation of a decoded
`*ecdsa.PublicKey`). -/

structure CryptoModel where
  /-- `sha256.Sum256`. -/
  sha256 : Bytes → Bytes
  /-- `x509.MarshalPKIXPublicKey` (total: the program treats failure as fatal). -/
  marshalPKIX : Nat → Bytes
  /-- `x509.ParsePKIXPublicKey`; `none` models a parse error. -/
  parsePKIX : Bytes → Option Nat
  /-- `asn1.Unmarshal` of the DER signature followed by `ecdsa.Verify`,
  collapsed into one boolean: key, hash bytes, signature bytes. -/
  ecdsaVerifyDER : Nat → Bytes → Bytes → Bool
  /-- `json.Unmarshal` of a JSON object into a `map[string]string` through a
  proper pointer target; `none` models malformed JSON. -/
  jsonParseStrMap : String → Option (List (String × String))
  /-- `time.Now().Unix()` at the moment of the call being modelled. -/
  now : Int

/-! ### crypto.go -/

/-- `getPubKeyHash`: `"1:" + hex.EncodeToString(sha256.Sum256(b))`. -/
def getPubKeyHash (C : CryptoModel) (b : Bytes) : String :=
  "1:" ++ hexEncode (C.sha256 b)

/-- `cryptoMustGetPublicKeyHash`: marshal the key to PKIX DER and hash it. -/
def cryptoMustGetPublicKeyHash (C : CryptoModel) (key : Nat) : String :=
  getPubKeyHash C (C.marshalPKIX key)

/-- `cryptoDecodePublicKeyBytes`: parse PKIX public key bytes. -/
def cryptoDecodePublicKeyBytes (C : CryptoModel) (key : Bytes) : Except String Nat :=
  match C.parsePKIX key with
  | none => .error "asn1 structure error"
  | some k => .ok k

/-- `cryptoVerifyBytes`: DER-decode the signature and verify; `ok` iff it verifies. -/
def cryptoVerifyBytes (C : CryptoModel) (publicKey : Nat) (hash : Bytes)
    (signature : Bytes) : Except String Unit :=
  if C.ecdsaVerifyDER publicKey hash signature then .ok ()
  else .error "Signature verification failed"

/-- `cryptoVerifyPublicKeyHashSignature`: requires the `"type:hex"` format
(character 1 must be a colon), hex-decodes the tail, verifies the bytes. -/
def cryptoVerifyPublicKeyHashSignature (C : CryptoModel) (publicKey : Nat)
    (publicKeyHash : String) (signature : Bytes) : Except String Unit :=
  if publicKeyHash.data.get? 1 ≠ some ':' then
    .error "expects a public key in the type:hex format"
  else
    match hexDecode (publicKeyHash.drop 2) with
    | none => .error "bad hex in public key hash"
    | some hashBytes => cryptoVerifyBytes C publicKey hashBytes signature

/-- `cryptoVerifyHexBytes`: hex-decode the hash string, then verify. -/
def cryptoVerifyHexBytes (C : CryptoModel) (publicKey : Nat) (hash : String)
    (signatureBytes : Bytes) : Except String Unit :=
  match hexDecode hash with
  | none => .error "bad hex in hash"
  | some hashBytes => cryptoVerifyBytes C publicKey hashBytes signatureBytes

/-! ### db.go: the system store

The main store's `blockchain` and `pubkeys` tables are modelled as lists of
rows holding exactly the columns of the SQL schema; hex-encoded columns keep
their stored (string) form and are decoded by the read operations, as in the
source. -/

/-- A row of the `pubkeys` table. -/
structure PubKeyRow where
  pubkeyHash : String
  pubkeyHex : String
  state : String
  timeAdded : Int
  timeRevoked : Option Int
  blockHeight : Int
  metadata : Option String
deriving DecidableEq

/-- A row of the `blockchain` table. -/
structure BlockchainRow where
  height : Int
  sigkeyHash : String
  hash : String
  hashSignatureHex : String
  prevHash : String
  prevHashSignatureHex : String
  timeAccepted : Int
  version : Int
deriving DecidableEq

/-- The main system store (`daisy.db`): chain index and accepted keys. -/
structure MainDb where
  blockchain : List BlockchainRow
  pubkeys : List PubKeyRow
deriving DecidableEq

/-- `DbPubKey`: the decoded convenience structure returned by `dbGetPublicKey`. -/
structure DbPubKey where
  publicKeyHash : String
  publicKeyBytes : Bytes
  state : String
  timeAdded : Int
  isRevoked : Bool
  timeRevoked : Option Int
  addBlockHeight : Int
  metadata : List (String × String)
deriving DecidableEq

/-- `DbBlockchainBlock`: the decoded convenience structure for a chain record. -/
structure DbBlockchainBlock where
  height : Int
  hash : String
  previousBlockHash : String
  signaturePublicKeyHash : String
  previousBlockHashSignature : Bytes
  hashSignature : Bytes
  timeAccepted : Int
  version : Int
deriving DecidableEq

/-- `dbGetPublicKey`: select the row by hash (`ErrNoRows` when absent),
hex-decode the key bytes, derive `isRevoked` from `COALESCE(time_revoked,-1)`,
and JSON-decode non-empty metadata through a pointer target. -/
def dbGetPublicKey (C : CryptoModel) (db : MainDb) (publicKeyHash : String) :
    Except String DbPubKey :=
  match db.pubkeys.find? (fun r => r.pubkeyHash = publicKeyHash) with
  | none => .error "sql: no rows in result set"
  | some r =>
    match hexDecode r.pubkeyHex with
    | none => .error "bad hex in stored public key"
    | some publicKeyBytes =>
      let base : DbPubKey :=
        { publicKeyHash := r.pubkeyHash
          publicKeyBytes := publicKeyBytes
          state := r.state
          timeAdded := r.timeAdded
          isRevoked := r.timeRevoked.isSome
          timeRevoked := r.timeRevoked
          addBlockHeight := r.blockHeight
          metadata := [] }
      if r.metadata.getD "" = "" then .ok base
      else
        match C.jsonParseStrMap (r.metadata.getD "") with
        | none => .error "Public key metadata unmarshall failed"
        | some m => .ok { base with metadata := m }

/-- Decode one `blockchain` row into a `DbBlockchainBlock`
(shared tail of `dbGetBlock` and `dbGetBlockByHeight`). -/
def decodeBlockchainRow (r : BlockchainRow) : Except String DbBlockchainBlock :=
  match hexDecode r.prevHashSignatureHex with
  | none => .error "bad hex in stored previous hash signature"
  | some prevSig =>
    match hexDecode r.hashSignatureHex with
    | none => .error "bad hex in stored hash signature"
    | some hashSig =>
      .ok { height := r.height
            hash := r.hash
            previousBlockHash := r.prevHash
            signaturePublicKeyHash := r.sigkeyHash
            previousBlockHashSignature := prevSig
            hashSignature := hashSig
            timeAccepted := r.timeAccepted
            version := r.version }

/-- `dbGetBlock`: select the chain record with the given hash. -/
def dbGetBlock (db : MainDb) (hash : String) : Except String DbBlockchainBlock :=
  match db.blockchain.find? (fun r => r.hash = hash) with
  | none => .error "sql: no rows in result set"
  | some r => decodeBlockchainRow r

/-- `dbGetBlockByHeight`: select the chain record at the given height. -/
def dbGetBlockByHeight (db : MainDb) (height : Int) : Except String DbBlockchainBlock :=
  match db.blockchain.find? (fun r => r.height = height) with
  | none => .error "sql: no rows in result set"
  | some r => decodeBlockchainRow r

/-- `dbWritePublicKey`: INSERT into pubkeys with state `"A"`, the current time
and the given block height; `time_revoked` and `metadata` are left NULL. -/
def dbWritePublicKey (C : CryptoModel) (db : MainDb) (pubkey : Bytes)
    (hash : String) (blockHeight : Int) : MainDb :=
  { db with pubkeys := db.pubkeys ++
      [{ pubkeyHash := hash
         pubkeyHex := hexEncode pubkey
         state := "A"
         timeAdded := C.now
         timeRevoked := none
         blockHeight := blockHeight
         metadata := none }] }

/-- `dbRevokePublicKey`: UPDATE pubkeys SET time_revoked = now WHERE pubkey_hash = hash. -/
def dbRevokePublicKey (C : CryptoModel) (db : MainDb) (hash : String) : MainDb :=
  let upd := fun (r : PubKeyRow) =>
    if r.pubkeyHash = hash then { r with timeRevoked := some C.now } else r
  { db with pubkeys := db.pubkeys.map upd }

/-- The `blockchain` table row written for a chain record: signatures are
stored hex-encoded, as `dbInsertBlock` does. -/
def blockchainRowFor (dbb : DbBlockchainBlock) : BlockchainRow where
  height := dbb.height
  sigkeyHash := dbb.signaturePublicKeyHash
  hash := dbb.hash
  hashSignatureHex := hexEncode dbb.hashSignature
  prevHash := dbb.previousBlockHash
  prevHashSignatureHex := hexEncode dbb.previousBlockHashSignature
  timeAccepted := dbb.timeAccepted
  version := dbb.version

/-- `dbInsertBlock`: INSERT the chain record; the `hash` primary key and the
UNIQUE `height` constraint reject duplicates. -/
def dbInsertBlock (db : MainDb) (dbb : DbBlockchainBlock) : Except String MainDb :=
  if db.blockchain.any (fun r => r.hash = dbb.hash ∨ r.height = dbb.height) then
    .error "UNIQUE constraint failed"
  else
    .ok { db with blockchain := db.blockchain ++ [blockchainRowFor dbb] }

/-! ### blockchain.go: the block container and admission -/

/-- `CurrentBlockVersion`. -/
def CurrentBlockVersion : Int := 1

/-- A row of a block file's `_keys` table, with `COALESCE(metadata, '')`
already applied at the query as in the source (absent metadata reads as `""`). -/
structure KeyRow where
  op : String
  pubkeyHash : String
  pubkeyHex : String
  sigkeyHash : String
  signatureHex : String
  metadata : String
deriving DecidableEq

/-- `BlockKeyOp`: the decoded representation of a `_keys` row. -/
structure BlockKeyOp where
  op : String
  publicKeyHash : String
  publicKeyBytes : Bytes
  signatureKeyHash : String
  signature : Bytes
  metadata : List (String × String)
deriving DecidableEq

/-- `Block`: the candidate block's chain-record fields together with the
contents of its `_keys` table (the part of the block file the admission
path reads). -/
structure Block where
  dbb : DbBlockchainBlock
  keysRows : List KeyRow
deriving DecidableEq

/-- Models `json.Unmarshal` with the decode target `keyOp.metadata`, a map
value rather than a pointer: `encoding/json` rejects every non-pointer decode
target with `InvalidUnmarshalError`, regardless of the input JSON, so the call
fails unconditionally. -/
def jsonUnmarshalNonPointerStrMap (_s : String) : Except String (List (String × String)) :=
  .error "json: Unmarshal(non-pointer map[string]string)"

/-- The per-row body of the `dbGetKeyOps` scan loop: hex-decode the key bytes,
decode the public key, require the stored target hash to match the hash of the
stored key bytes, hex-decode the signature, and decode non-empty metadata. -/
def readKeyOpRow (C : CryptoModel) (row : KeyRow) : Except String BlockKeyOp :=
  match hexDecode row.pubkeyHex with
  | none => .error "bad hex in key op public key"
  | some publicKeyBytes =>
    match cryptoDecodePublicKeyBytes C publicKeyBytes with
    | .error e => .error e
    | .ok publicKey =>
      if row.pubkeyHash ≠ cryptoMustGetPublicKeyHash C publicKey then
        .error ("Public key hash doesn't match for " ++ row.pubkeyHash)
      else
        match hexDecode row.signatureHex with
        | none => .error "bad hex in key op signature"
        | some signature =>
          match (if row.metadata = "" then .ok []
                 else jsonUnmarshalNonPointerStrMap row.metadata) with
          | .error e => .error e
          | .ok metadata =>
            .ok { op := row.op
                  publicKeyHash := row.pubkeyHash
                  publicKeyBytes := publicKeyBytes
                  signatureKeyHash := row.sigkeyHash
                  signature := signature
                  metadata := metadata }

/-- Insert a decoded key op into the target-hash-keyed groups, preserving
first-appearance order of the targets and appending within a group, as the
scan loop builds `keyOps[keyOp.publicKeyHash]`. -/
def insertKeyOp (m : List (String × List BlockKeyOp)) (k : String) (v : BlockKeyOp) :
    List (String × List BlockKeyOp) :=
  match m with
  | [] => [(k, [v])]
  | (k', vs) :: rest =>
    if k' = k then (k', vs ++ [v]) :: rest else (k', vs) :: insertKeyOp rest k v

/-- The scan loop of `dbGetKeyOps`: decode each row in order, grouping by
target public-key hash; the first row error aborts. -/
def collectKeyOps (C : CryptoModel) : List KeyRow →
    Except String (List (String × List BlockKeyOp)) →
    Except String (List (String × List BlockKeyOp))
  | [], acc => acc
  | row :: rest, acc =>
    match acc with
    | .error e => .error e
    | .ok m =>
      match readKeyOpRow C row with
      | .error e => .error e
      | .ok kop => collectKeyOps C rest (.ok (insertKeyOp m kop.publicKeyHash kop))

/-- The post-scan check of `dbGetKeyOps`: a group whose rows do not all carry
the first row's op. -/
def groupHasMixedOps (ops : List BlockKeyOp) : Bool :=
  match ops with
  | [] => false
  | k0 :: _ => ops.any (fun k => k.op ≠ k0.op)

/-- `dbGetKeyOps`: read the `_keys` table grouped by target key hash, then
reject a group with mixed ops. -/
def dbGetKeyOps (C : CryptoModel) (b : Block) :
    Except String (List (String × List BlockKeyOp)) :=
  match collectKeyOps C b.keysRows (.ok []) with
  | .error e => .error e
  | .ok groups =>
    match groups.find? (fun g => groupHasMixedOps g.2) with
    | some g => .error ("Mixed key ops for a single public key " ++ g.1)
    | none => .ok groups

/-- `QuorumForHeight`: 1 below 149, otherwise `int(math.Log(float64(h)) * 2)`.
`math.Log` is idealised as the exact real logarithm; the `int` truncation
equals the floor because the value is positive on the branch where it is
taken (`h ≥ 149`). -/
noncomputable def QuorumForHeight (h : Int) : Int :=
  if h < 149 then 1 else ⌊Real.log (h : ℝ) * 2⌋

/-- The quorum test of `checkAcceptBlock` (line `len(keyOps) < targetQuorum`):
`true` means the group is rejected. -/
def quorumNotMet (targetQuorum : Int) (keyOps : List BlockKeyOp) : Bool :=
  decide ((keyOps.length : Int) < targetQuorum)

/-- The quorum test of `blockchainVerifyEverything` (line `len(keyOps) != Q`):
`true` means the group is flagged as an error. -/
def quorumMismatch (q : Int) (keyOps : List BlockKeyOp) : Bool :=
  decide ((keyOps.length : Int) ≠ q)

/-- The key-ops quorum pass of `blockchainVerifyEverything` over one block's
groups at the given height: the error messages it accumulates (it logs each
and keeps going) for groups failing its `len(keyOps) != Q` test. -/
noncomputable def blockchainVerifyQuorumErrors (height : Int)
    (groups : List (String × List BlockKeyOp)) : List String :=
  groups.filterMap (fun g =>
    if quorumMismatch (QuorumForHeight height) g.2 then
      some ("key ops for " ++ g.1 ++ " don't have quorum")
    else none)

/-- The inner signature loop of `checkAcceptBlock` for one key group: each
row's signer is looked up in the accepted-key store, decoded, and the row's
signature over the target hash is verified.  Neither the signer's revocation
state nor distinctness between the group's signers is examined. -/
def verifyKeyOpSignatures (C : CryptoModel) (db : MainDb) (key : String) :
    List BlockKeyOp → Except String Unit
  | [] => .ok ()
  | keyOp :: rest =>
    match dbGetPublicKey C db keyOp.signatureKeyHash with
    | .error _ =>
      .error ("Error retrieving supposedly key op signatory " ++ keyOp.signatureKeyHash)
    | .ok signatoryPubKey =>
      match cryptoDecodePublicKeyBytes C signatoryPubKey.publicKeyBytes with
      | .error _ => .error ("Cannot decode public key " ++ signatoryPubKey.publicKeyHash)
      | .ok sigPubKey =>
        match cryptoVerifyPublicKeyHashSignature C sigPubKey key keyOp.signature with
        | .error _ =>
          .error ("Failed verification of key op for " ++ key ++ " by " ++ keyOp.signatureKeyHash)
        | .ok () => verifyKeyOpSignatures C db key rest

/-- The key-group loop of `checkAcceptBlock`: for each target-key group, check
the quorum, verify all signatures, then apply the op — op `A` inserts the
target key (rejecting a target that already exists), op `R` marks it revoked
(rejecting an unknown or already-revoked target), anything else is rejected.
Mutations performed for earlier groups persist when a later group fails. -/
def processKeyOps (C : CryptoModel) (targetQuorum : Int) (thisBlockHeight : Int) :
    MainDb → List (String × List BlockKeyOp) → MainDb × Except String Unit
  | db, [] => (db, .ok ())
  | db, (key, keyOps) :: rest =>
    if quorumNotMet targetQuorum keyOps then
      (db, .error ("Quorum not met for key ops on key " ++ key))
    else
      match verifyKeyOpSignatures C db key keyOps with
      | .error e => (db, .error e)
      | .ok () =>
        match keyOps.head? with
        | none => (db, .error "panic: index out of range")
        | some kop0 =>
          if kop0.op = "A" then
            match dbGetPublicKey C db key with
            | .ok _ =>
              (db, .error "Attempt to add an already existing key to the list of signatores")
            | .error _ =>
              processKeyOps C targetQuorum thisBlockHeight
                (dbWritePublicKey C db kop0.publicKeyBytes key thisBlockHeight) rest
          else if kop0.op = "R" then
            match dbGetPublicKey C db key with
            | .error _ => (db, .error ("Cannot retrieve key to revoke: " ++ key))
            | .ok dbpk =>
              if dbpk.isRevoked then
                (db, .error ("Attempt to revoke a key which is already revoked: " ++ key))
              else
                processKeyOps C targetQuorum thisBlockHeight
                  (dbRevokePublicKey C db key) rest
          else
            (db, .error ("Invalid key op: " ++ kop0.op))

/-- `checkAcceptBlock`: the admission check of a candidate block.  The second
component is the result (`ok height` or the first error); the first component
is the resulting accepted-key store — mutations the key-group loop performed
before an error are not rolled back, as in the source. -/
noncomputable def checkAcceptBlock (C : CryptoModel) (db : MainDb) (blk : Block) :
    MainDb × Except String Int :=
  if blk.dbb.version ≠ CurrentBlockVersion then
    (db, .error "Unsupported block version")
  else
    match dbGetBlock db blk.dbb.previousBlockHash with
    | .error _ =>
      (db, .error ("Cannot find previous block " ++ blk.dbb.previousBlockHash))
    | .ok prevBlk =>
      match dbGetBlockByHeight db (prevBlk.height + 1) with
      | .ok _ =>
        (db, .error "The block to accept would replace an existing block, and this is not supported yet")
      | .error _ =>
        match dbGetPublicKey C db blk.dbb.signaturePublicKeyHash with
        | .error _ =>
          (db, .error ("Cannot find an accepted public key " ++
            blk.dbb.signaturePublicKeyHash ++ " signing the block"))
        | .ok signatoryPubKey =>
          if signatoryPubKey.isRevoked then
            (db, .error ("The public key " ++ blk.dbb.signaturePublicKeyHash ++
              " signing the block is revoked"))
          else
            match cryptoDecodePublicKeyBytes C signatoryPubKey.publicKeyBytes with
            | .error _ =>
              (db, .error ("Cannot decode public key " ++ blk.dbb.signaturePublicKeyHash))
            | .ok sigPubKey =>
              match cryptoVerifyHexBytes C sigPubKey blk.dbb.previousBlockHash
                  blk.dbb.previousBlockHashSignature with
              | .error _ => (db, .error "Verification of previous block hash has failed")
              | .ok () =>
                match cryptoVerifyHexBytes C sigPubKey blk.dbb.hash blk.dbb.hashSignature with
                | .error _ => (db, .error "Verification of block hash has failed")
                | .ok () =>
                  match dbGetKeyOps C blk with
                  | .error e => (db, .error e)
                  | .ok allKeyOps =>
                    match processKeyOps C (QuorumForHeight (prevBlk.height + 1))
                        (prevBlk.height + 1) db allKeyOps with
                    | (db1, .error e) => (db1, .error e)
                    | (db1, .ok ()) => (db1, .ok (prevBlk.height + 1))

/-- The tail of the p2p `handleBlock` handler from the admission call onward:
on success the caller stamps the height and acceptance time and inserts the
chain record (the block-file copy has no counterpart in this state model);
on failure the store is left as admission left it. -/
noncomputable def handleBlockTail (C : CryptoModel) (db : MainDb) (blk : Block) : MainDb :=
  match checkAcceptBlock C db blk with
  | (db1, .error _) => db1
  | (db1, .ok height) =>
    match dbInsertBlock db1 { blk.dbb with height := height, timeAccepted := C.now } with
    | .error _ => db1
    | .ok db2 => db2

/-! ### p2p.go: the peer-session state machine

Wire messages are newline-delimited JSON decoded into a permissive
string-to-value map (`StrIfMap`).  JSON values are modelled by `JVal`
(numbers as integers: the protocol only carries integral numbers), the JSON
parser for a raw line is an abstract parameter. -/

inductive JVal where
  | str : String → JVal
  | num : Int → JVal
  | list : List JVal → JVal
  | obj : List (String × JVal) → JVal

/-- `StrIfMap`: a decoded JSON message. -/
def StrIfMap := List (String × JVal)

/-- `StrIfMap.GetString`: missing key or non-string value is an error. -/
def StrIfMap.GetString (m : StrIfMap) (key : String) : Except String String :=
  match List.find? (fun kv => kv.1 = key) m with
  | none => .error ("No " ++ key ++ " key in map")
  | some (_, .str s) => .ok s
  | some _ => .error ("The " ++ key ++ " key in map is not a string")

/-- `StrIfMap.GetInt`: missing key or non-number value is an error. -/
def StrIfMap.GetInt (m : StrIfMap) (key : String) : Except String Int :=
  match List.find? (fun kv => kv.1 = key) m with
  | none => .error ("No " ++ key ++ " key in map")
  | some (_, .num n) => .ok n
  | some _ => .error ("The " ++ key ++ " key in map is not an int64")

/-- `StrIfMap.GetInt64`: same shape as `GetInt`. -/
def StrIfMap.GetInt64 (m : StrIfMap) (key : String) : Except String Int :=
  StrIfMap.GetInt m key

/-- `StrIfMap.GetStringList`: the key must hold a list whose elements are all
strings. -/
def StrIfMap.GetStringList (m : StrIfMap) (key : String) : Except String (List String) :=
  match List.find? (fun kv => kv.1 = key) m with
  | none => .error ("No " ++ key ++ " key in map")
  | some (_, .list l) =>
    let rec collect : List JVal → Except String (List String)
      | [] => .ok []
      | .str s :: rest =>
        match collect rest with
        | .error e => .error e
        | .ok tl => .ok (s :: tl)
      | _ :: _ => .error "Element of the key is not a string"
    collect l
  | some _ => .error ("The " ++ key ++ " key in map is not an array")

/-- What the session does with one received line. -/
inductive LineAction where
  | terminate (reason : String)
  | ignored
  | delivered (msg : StrIfMap)

/-- The per-line body of the receive goroutine in `handleConnection`:
a JSON parse failure or a missing/ill-typed `root` posts a fatal `_error`
(tearing the session down); a `root` different from the chain's genesis hash
is logged and skipped (`continue`); otherwise the message is posted to the
driver. -/
def handleConnectionLine (genesisBlockHash : String)
    (parseJson : String → Option StrIfMap) (line : String) : LineAction :=
  match parseJson line with
  | none => .terminate "Cannot parse JSON"
  | some msg =>
    match msg.GetString "root" with
    | .error _ => .terminate "Problem with chain root"
    | .ok root =>
      if root ≠ genesisBlockHash then .ignored
      else .delivered msg

/-- Whether one received line ends the session: the receive-side checks of
`handleConnection` followed by the driver's dispatch.  The driver first exits
when the message carries a string `_error` key (this is how the reader's
fatal sentinels arrive, but it also fires on a genuine wire message carrying
such a field), then exits when the message has no usable `msg` field. -/
def sessionLineTerminates (genesisBlockHash : String)
    (parseJson : String → Option StrIfMap) (line : String) : Bool :=
  match handleConnectionLine genesisBlockHash parseJson line with
  | .terminate _ => true
  | .ignored => false
  | .delivered msg =>
    match msg.GetString "_error" with
    | .ok _ => true
    | .error _ =>
      match msg.GetString "msg" with
      | .error _ => true
      | .ok _ => false

/-- One live peer connection as `handleMsgHello` sees it.  `connId` stands for
the identity of the Go `*p2pConnection` pointer. -/
structure PeerConn where
  connId : Nat
  address : String
  peerID : Int
  chainHeight : Int
deriving DecidableEq

/-- The shared peer state `handleMsgHello` reads and writes: the global peer
set and the coordinator's bad-peer set (expiry is not modelled). -/
structure PeersState where
  peers : List PeerConn
  badPeers : List String
deriving DecidableEq

/-- The outcome of `handleMsgHello` on one connection. -/
structure HelloResult where
  /-- The connection's fields after the handler ran. -/
  self : PeerConn
  /-- The bad-peer set after the handler ran. -/
  badPeers : List String
  /-- Whether the handler closed this connection. -/
  closed : Bool
  /-- The `CtrlConnectPeers` payload sent to the coordinator, when any. -/
  ctrlConnectPeers : Option (List String)
  /-- Whether `CtrlSearchForBlocks` was sent to the coordinator. -/
  ctrlSearchForBlocks : Bool
deriving DecidableEq

/-- `handleMsgHello`: read `version`, `chain_height` and (when the peer id is
still unset) `p2p_id`; announce the advertised peers; a connection whose peer
id duplicates another live session's, or equals our own ephemeral id, is
marked bad and closed; otherwise the session proceeds and a peer reporting a
greater chain height triggers a block search. -/
def handleMsgHello (ourEphemeralID : Int) (ourChainHeight : Int) (st : PeersState)
    (self : PeerConn) (msg : StrIfMap) : HelloResult :=
  match msg.GetString "version" with
  | .error _ =>
    { self := self, badPeers := st.badPeers, closed := false
      ctrlConnectPeers := none, ctrlSearchForBlocks := false }
  | .ok _ver =>
    match msg.GetInt "chain_height" with
    | .error _ =>
      { self := { self with chainHeight := 0 }, badPeers := st.badPeers, closed := false
        ctrlConnectPeers := none, ctrlSearchForBlocks := false }
    | .ok ch =>
      let self1 : PeerConn := { self with chainHeight := ch }
      match (if self1.peerID = 0 then msg.GetInt64 "p2p_id" else .ok self1.peerID) with
      | .error _ =>
        { self := self1, badPeers := st.badPeers, closed := false
          ctrlConnectPeers := none, ctrlSearchForBlocks := false }
      | .ok pid =>
        let self2 : PeerConn := { self1 with peerID := pid }
        let ctrlConnect := (msg.GetStringList "my_peers").toOption
        let dupPeer := st.peers.any
          (fun p => p.peerID = self2.peerID ∧ p.connId ≠ self2.connId)
        let dup := dupPeer ∨ self2.peerID = ourEphemeralID
        if dup then
          { self := self2, badPeers := st.badPeers ++ [self2.address], closed := true
            ctrlConnectPeers := ctrlConnect, ctrlSearchForBlocks := false }
        else
          { self := self2, badPeers := st.badPeers, closed := false
            ctrlConnectPeers := ctrlConnect
            ctrlSearchForBlocks := self2.chainHeight > ourChainHeight }

/-! ### Concrete instances used by the counterexamples and witnesses -/

/-- A fixed decoded key op used to build concrete key groups. -/
def sampleKeyOp : BlockKeyOp where
  op := "A"
  publicKeyHash := "1:01"
  publicKeyBytes := [1]
  signatureKeyHash := "1:0b"
  signature := []
  metadata := []

/-- A concrete crypto model: keys marshal to their one-byte tag, parsing reads
it back, every signature verifies, JSON parses to the empty map, and the clock
reads 7. -/
def oracleA : CryptoModel where
  sha256 := id
  marshalPKIX := fun k => [k]
  parsePKIX := fun b => some (b.headD 0)
  ecdsaVerifyDER := fun _ _ _ => true
  jsonParseStrMap := fun _ => some []
  now := 7

/-- A chain-index row for the genesis block of the concrete fixtures. -/
def fixChainRow : BlockchainRow where
  height := 0
  sigkeyHash := "1:0b"
  hash := "b0"
  hashSignatureHex := ""
  prevHash := "00"
  prevHashSignatureHex := ""
  timeAccepted := 0
  version := 1

/-- An accepted, non-revoked block-creator key row. -/
def fixCreatorRow : PubKeyRow where
  pubkeyHash := "1:0b"
  pubkeyHex := "0b"
  state := "A"
  timeAdded := 0
  timeRevoked := none
  blockHeight := 0
  metadata := none

/-- A key row that has been revoked (time_revoked is set). -/
def fixRevokedRow : PubKeyRow where
  pubkeyHash := "1:0a"
  pubkeyHex := "0a"
  state := "A"
  timeAdded := 0
  timeRevoked := some 5
  blockHeight := 0
  metadata := none

/-- The same signer key row, still active. -/
def fixActiveRow : PubKeyRow where
  pubkeyHash := "1:0a"
  pubkeyHex := "0a"
  state := "A"
  timeAdded := 0
  timeRevoked := none
  blockHeight := 0
  metadata := none

/-- A candidate-block header extending `fixChainRow` (so its height is 1). -/
def fixHeader : DbBlockchainBlock where
  height := 0
  hash := "cc"
  previousBlockHash := "b0"
  signaturePublicKeyHash := "1:0b"
  previousBlockHashSignature := []
  hashSignature := []
  timeAccepted := 0
  version := 1

/-- A `_keys` row adding target key `1:01`, signed by `1:0a`. -/
def fixAddRow : KeyRow where
  op := "A"
  pubkeyHash := "1:01"
  pubkeyHex := "01"
  sigkeyHash := "1:0a"
  signatureHex := "ff"
  metadata := ""

/-- A `_keys` row with an invalid op `X` on target `1:02`, signed by `1:0a`. -/
def fixBadOpRow : KeyRow where
  op := "X"
  pubkeyHash := "1:02"
  pubkeyHex := "02"
  sigkeyHash := "1:0a"
  signatureHex := "ff"
  metadata := ""

/-- Store for the C2 counterexample: the creator key is active, the key-op
signer `1:0a` is revoked. -/
def storeRevokedSigner : MainDb where
  blockchain := [fixChainRow]
  pubkeys := [fixCreatorRow, fixRevokedRow]

/-- Candidate block whose single key group is signed only by `1:0a`. -/
def blockSignedByRevoked : Block where
  dbb := fixHeader
  keysRows := [fixAddRow]

/-- Store for the C3 failing input: creator and signer both active. -/
def storeTwoKeys : MainDb where
  blockchain := [fixChainRow]
  pubkeys := [fixCreatorRow, fixActiveRow]

/-- Candidate block with a valid add group followed by an invalid-op group. -/
def blockAddThenBadOp : Block where
  dbb := fixHeader
  keysRows := [fixAddRow, fixBadOpRow]

/-- The empty store. -/
def storeEmpty : MainDb where
  blockchain := []
  pubkeys := []

/-- A `_keys` row with non-empty, well-formed JSON metadata. -/
def fixMetaKeyRow : KeyRow where
  op := "A"
  pubkeyHash := "1:01"
  pubkeyHex := "01"
  sigkeyHash := "1:0b"
  signatureHex := "ff"
  metadata := "\x7b\x7d"

/-- A candidate block whose only `_keys` row carries metadata. -/
def blockWithMetadata : Block where
  dbb := fixHeader
  keysRows := [fixMetaKeyRow]

/-- An accepted-key row carrying JSON metadata. -/
def fixMetaPubRow : PubKeyRow where
  pubkeyHash := "1:0c"
  pubkeyHex := "0c"
  state := "A"
  timeAdded := 0
  timeRevoked := none
  blockHeight := 0
  metadata := some "\x7b\x7d"

/-- A store holding only `fixMetaPubRow`. -/
def storeMetaPub : MainDb where
  blockchain := []
  pubkeys := [fixMetaPubRow]

/-- A concrete wire-level JSON parser: the line "L" decodes to a message whose
root is "x"; everything else is malformed. -/
def parseFix : String → Option StrIfMap :=
  fun line => if line = "L" then some [("root", .str "x"), ("msg", .str "hello")] else none

/-- An existing live session with peer id 9. -/
def fixPeerOld : PeerConn where
  connId := 1
  address := "a1"
  peerID := 9
  chainHeight := 0

/-- A freshly greeted session whose peer id is still unset. -/
def fixPeerNew : PeerConn where
  connId := 2
  address := "a2"
  peerID := 0
  chainHeight := 0

/-- A peer state holding both sessions and no bad peers. -/
def fixPeersState : PeersState where
  peers := [fixPeerOld, fixPeerNew]
  badPeers := []

/-- A well-formed hello message announcing peer id 9. -/
def helloMsgFix : StrIfMap :=
  [("version", .str "v"), ("chain_height", .num 3), ("p2p_id", .num 9), ("my_peers", .list [])]

/-! ### Derived predicates used in the statements -/

/-- The store's `pubkeys` table has a row with the given hash. -/
def hasPubKey (db : MainDb) (h : String) : Prop :=
  ∃ r ∈ db.pubkeys, r.pubkeyHash = h

/-- One `pubkeys` row evolves by staying unchanged or by getting its
revocation time stamped with the current clock. -/
def rowEvolved (C : CryptoModel) (r r' : PubKeyRow) : Prop :=
  r' = r ∨ r' = { r with timeRevoked := some C.now }

/-- Every old `pubkeys` row survives, unchanged or revocation-stamped, in the
new table. -/
def pubkeysEvolved (C : CryptoModel) (old new : List PubKeyRow) : Prop :=
  ∀ r ∈ old, ∃ r' ∈ new, rowEvolved C r r'

/-! ## Theorems -/

/-! ### Bounds on the quorum logarithms -/

theorem exp_five_le : Real.exp 5 ≤ 149 := by
  have h1 : Real.exp 1 < 2.7182818286 := Real.exp_one_lt_d9
  have h5 : Real.exp 5 = (Real.exp 1) ^ (5:ℕ) := by
    rw [← Real.exp_nat_mul]; norm_num
  rw [h5]
  calc (Real.exp 1) ^ (5:ℕ) ≤ 2.7182818286 ^ (5:ℕ) :=
        pow_le_pow_left₀ (Real.exp_pos 1).le h1.le 5
    _ ≤ 149 := by norm_num

theorem floor_log149_mul_two : ⌊Real.log (149:ℝ) * 2⌋ = 10 := by
  have hlb : (5:ℝ) ≤ Real.log 149 :=
    (Real.le_log_iff_exp_le (by norm_num)).mpr exp_five_le
  have hub : Real.log 149 * 2 < 11 := by
    have hsq : Real.log ((149:ℝ) ^ (2:ℕ)) = 2 * Real.log 149 := by
      rw [Real.log_pow]; norm_num
    have h2 : Real.log ((149:ℝ) ^ (2:ℕ)) < 11 := by
      rw [Real.log_lt_iff_lt_exp (by norm_num : (0:ℝ) < (149:ℝ) ^ (2:ℕ))]
      have h1 : (2.7182818283:ℝ) < Real.exp 1 := Real.exp_one_gt_d9
      have h11 : Real.exp 11 = (Real.exp 1) ^ (11:ℕ) := by
        rw [← Real.exp_nat_mul]; norm_num
      rw [h11]
      calc ((149:ℝ) ^ (2:ℕ)) < 2.7182818283 ^ (11:ℕ) := by norm_num
        _ < (Real.exp 1) ^ (11:ℕ) := pow_lt_pow_left₀ h1 (by norm_num) (by norm_num)
    linarith [hsq, h2]
  rw [Int.floor_eq_iff]
  constructor
  · push_cast; linarith
  · push_cast; linarith

theorem floor_log245_mul_two : ⌊Real.log (245:ℝ) * 2⌋ = 11 := by
  have hlb : (11:ℝ) ≤ Real.log ((245:ℝ) ^ (2:ℕ)) := by
    rw [Real.le_log_iff_exp_le (by norm_num : (0:ℝ) < (245:ℝ) ^ (2:ℕ))]
    have h1 : Real.exp 1 < 2.7182818286 := Real.exp_one_lt_d9
    have h11 : Real.exp 11 = (Real.exp 1) ^ (11:ℕ) := by
      rw [← Real.exp_nat_mul]; norm_num
    rw [h11]
    calc (Real.exp 1) ^ (11:ℕ) ≤ 2.7182818286 ^ (11:ℕ) :=
          pow_le_pow_left₀ (Real.exp_pos 1).le h1.le 11
      _ ≤ (245:ℝ) ^ (2:ℕ) := by norm_num
  have hsq : Real.log ((245:ℝ) ^ (2:ℕ)) = 2 * Real.log 245 := by
    rw [Real.log_pow]; norm_num
  have hub : Real.log 245 < 6 := by
    rw [Real.log_lt_iff_lt_exp (by norm_num : (0:ℝ) < 245)]
    have h1 : (2.7182818283:ℝ) < Real.exp 1 := Real.exp_one_gt_d9
    have h6 : Real.exp 6 = (Real.exp 1) ^ (6:ℕ) := by
      rw [← Real.exp_nat_mul]; norm_num
    rw [h6]
    calc (245:ℝ) < 2.7182818283 ^ (6:ℕ) := by norm_num
      _ < (Real.exp 1) ^ (6:ℕ) := pow_lt_pow_left₀ h1 (by norm_num) (by norm_num)
  rw [Int.floor_eq_iff]
  constructor
  · push_cast; linarith
  · push_cast; linarith

/-- C4: `QuorumForHeight` returns 1 below height 149 and `⌊ln H · 2⌋` from
149 on; in particular Q(148) = 1, Q(149) = 10 and Q(245) = 11. -/
theorem quorumForHeight_spec :
    (∀ h : Int, h < 149 → QuorumForHeight h = 1) ∧
    (∀ h : Int, 149 ≤ h → QuorumForHeight h = ⌊Real.log (h:ℝ) * 2⌋) ∧
    QuorumForHeight 148 = 1 ∧ QuorumForHeight 149 = 10 ∧ QuorumForHeight 245 = 11 := by
  refine ⟨fun h hh => if_pos hh, fun h hh => if_neg (not_lt.mpr hh), if_pos (by norm_num),
    ?_, ?_⟩
  · have : QuorumForHeight 149 = ⌊Real.log ((149:ℤ):ℝ) * 2⌋ := if_neg (by norm_num)
    rw [this]
    norm_num [floor_log149_mul_two]
  · have : QuorumForHeight 245 = ⌊Real.log ((245:ℤ):ℝ) * 2⌋ := if_neg (by norm_num)
    rw [this]
    norm_num [floor_log245_mul_two]

/-- Witness for C4 at height 3. -/
theorem quorumForHeight_spec_witness :
    (3:ℤ) < 149 ∧ QuorumForHeight 3 = 1 :=
  ⟨by norm_num, quorumForHeight_spec.1 3 (by norm_num)⟩

/-! ### C1: quorum policy of admission versus the strict verifier -/

/-- C1 counterexample: at height 1 a key group with 2 rows passes the
admission quorum test (`len < Q` is false for 2 < 1) while the strict
verifier flags it (`len != Q` holds for 2 ≠ 1), so the two checks are not
equivalent. -/
theorem quorum_policy_not_uniform :
    quorumNotMet (QuorumForHeight 1) [sampleKeyOp, sampleKeyOp] = false ∧
    quorumMismatch (QuorumForHeight 1) [sampleKeyOp, sampleKeyOp] = true ∧
    blockchainVerifyQuorumErrors 1 [("1:01", [sampleKeyOp, sampleKeyOp])] =
      ["key ops for 1:01 don't have quorum"] := by
  refine ⟨rfl, rfl, rfl⟩

/-- C1 (amended): the strict verifier's quorum test is strictly stronger than
the admission test — a group passing `len(keyOps) != Q` also passes
`len(keyOps) < Q`, and the two tests characterise `≥ Q` and `= Q`
respectively; they are not equivalent. -/
theorem quorum_policy_characterization :
    ∀ (h : Int) (ops : List BlockKeyOp),
    (quorumMismatch (QuorumForHeight h) ops = false →
      quorumNotMet (QuorumForHeight h) ops = false) ∧
    (quorumNotMet (QuorumForHeight h) ops = false ↔
      QuorumForHeight h ≤ (ops.length : Int)) ∧
    (quorumMismatch (QuorumForHeight h) ops = false ↔
      (ops.length : Int) = QuorumForHeight h) := by
  intro h ops
  refine ⟨?_, ?_, ?_⟩
  · intro he
    have hlen : (ops.length : Int) = QuorumForHeight h := by
      simpa [quorumMismatch] using he
    simp [quorumNotMet, hlen]
  · simp [quorumNotMet, not_lt]
  · simp [quorumMismatch]

/-- Witness for C1's amended theorem at height 1 with a singleton group. -/
theorem quorum_policy_characterization_witness :
    quorumNotMet (QuorumForHeight 1) [sampleKeyOp] = false :=
  (quorum_policy_characterization 1 [sampleKeyOp]).1 rfl

/-! ### C5: orphan rejection, height computation, replacement rejection -/

/-- C5: admission fails when the previous block is unknown (orphan) and when
the implied height is already occupied (replacement unsupported); a successful
admission returns exactly the previous block's height plus one. -/
theorem checkAcceptBlock_chain_linkage :
    ∀ (C : CryptoModel) (db : MainDb) (blk : Block),
    (∀ e, dbGetBlock db blk.dbb.previousBlockHash = .error e →
      ∃ e2, (checkAcceptBlock C db blk).2 = .error e2) ∧
    (∀ prev, dbGetBlock db blk.dbb.previousBlockHash = .ok prev →
      (∃ b2, dbGetBlockByHeight db (prev.height + 1) = .ok b2) →
      ∃ e2, (checkAcceptBlock C db blk).2 = .error e2) ∧
    (∀ h, (checkAcceptBlock C db blk).2 = .ok h →
      ∃ prev, dbGetBlock db blk.dbb.previousBlockHash = .ok prev ∧ h = prev.height + 1) := by
  intro C db blk
  refine ⟨?_, ?_, ?_⟩
  · intro e he
    unfold checkAcceptBlock
    split
    · exact ⟨_, rfl⟩
    · rw [he]
      exact ⟨_, rfl⟩
  · rintro prev hprev ⟨b2, hb2⟩
    unfold checkAcceptBlock
    split
    · exact ⟨_, rfl⟩
    · simp only [hprev, hb2]
      exact ⟨_, rfl⟩
  · intro h hok
    unfold checkAcceptBlock at hok
    split at hok
    · exact absurd hok (by simp)
    · split at hok
      · exact absurd hok (by simp)
      · rename_i prev hprev
        split at hok
        · exact absurd hok (by simp)
        · split at hok
          · exact absurd hok (by simp)
          · split at hok
            · exact absurd hok (by simp)
            · split at hok
              · exact absurd hok (by simp)
              · split at hok
                · exact absurd hok (by simp)
                · split at hok
                  · exact absurd hok (by simp)
                  · split at hok
                    · exact absurd hok (by simp)
                    · split at hok
                      · exact absurd hok (by simp)
                      · exact ⟨prev, hprev, (Except.ok.inj hok).symm⟩

/-- Witness for C5: on the empty store the candidate's previous block is
unknown and admission fails. -/
theorem checkAcceptBlock_chain_linkage_witness :
    ∃ e2, (checkAcceptBlock oracleA storeEmpty blockSignedByRevoked).2 = .error e2 :=
  (checkAcceptBlock_chain_linkage oracleA storeEmpty blockSignedByRevoked).1
    "sql: no rows in result set" rfl

/-! ### C2: what the admission path checks about key groups -/

/-- C2 counterexample: the single key-op row of the candidate block is signed
by `1:0a`, which is revoked in the store, yet `checkAcceptBlock` accepts the
block — the admission path never consults the key-op signer's revocation
state. -/
theorem checkAcceptBlock_accepts_revoked_signer :
    (dbGetPublicKey oracleA storeRevokedSigner "1:0a").map DbPubKey.isRevoked = .ok true ∧
    (blockSignedByRevoked.keysRows.map KeyRow.sigkeyHash) = ["1:0a"] ∧
    (checkAcceptBlock oracleA storeRevokedSigner blockSignedByRevoked).2 = .ok 1 :=
  ⟨rfl, rfl, rfl⟩

theorem dbGetPublicKey_ok_hasPubKey {C : CryptoModel} {db : MainDb} {h : String}
    {pk : DbPubKey} (hok : dbGetPublicKey C db h = .ok pk) : hasPubKey db h := by
  unfold dbGetPublicKey at hok
  split at hok
  · exact absurd hok (by simp)
  · rename_i r hfind
    have hp := List.find?_some hfind
    exact ⟨r, List.mem_of_find?_eq_some hfind, by simpa using hp⟩

theorem verifyKeyOpSignatures_ok_signers {C : CryptoModel} {db : MainDb} {key : String} :
    ∀ {ops : List BlockKeyOp}, verifyKeyOpSignatures C db key ops = .ok () →
    ∀ kop ∈ ops, hasPubKey db kop.signatureKeyHash := by
  intro ops
  induction ops with
  | nil => intro _ kop hmem; exact absurd hmem (List.not_mem_nil kop)
  | cons k0 rest ih =>
    intro hver kop hmem
    unfold verifyKeyOpSignatures at hver
    split at hver
    · exact absurd hver (by simp)
    · rename_i pk hget
      split at hver
      · exact absurd hver (by simp)
      · split at hver
        · exact absurd hver (by simp)
        · rcases List.mem_cons.mp hmem with hmem | hmem
          · exact hmem ▸ dbGetPublicKey_ok_hasPubKey hget
          · exact ih hver kop hmem

theorem hasPubKey_write {C : CryptoModel} {db : MainDb} {x : String}
    (b : Bytes) (hs : String) (ht : Int) (hx : hasPubKey db x) :
    hasPubKey (dbWritePublicKey C db b hs ht) x := by
  obtain ⟨r, hr, hh⟩ := hx
  exact ⟨r, List.mem_append_left _ hr, hh⟩

theorem hasPubKey_revoke {C : CryptoModel} {db : MainDb} {x : String}
    (k : String) (hx : hasPubKey db x) : hasPubKey (dbRevokePublicKey C db k) x := by
  obtain ⟨r, hr, hh⟩ := hx
  unfold dbRevokePublicKey
  by_cases hk : r.pubkeyHash = k
  · refine ⟨{ r with timeRevoked := some C.now }, ?_, hh⟩
    have : (if r.pubkeyHash = k then { r with timeRevoked := some C.now } else r) =
        { r with timeRevoked := some C.now } := if_pos hk
    exact this ▸ List.mem_map_of_mem _ hr
  · refine ⟨r, ?_, hh⟩
    have : (if r.pubkeyHash = k then { r with timeRevoked := some C.now } else r) = r :=
      if_neg hk
    exact this ▸ List.mem_map_of_mem _ hr

theorem processKeyOps_fst_hasPubKey (C : CryptoModel) (Q ht : Int) :
    ∀ (groups : List (String × List BlockKeyOp)) (db : MainDb) (x : String),
    hasPubKey db x → hasPubKey ((processKeyOps C Q ht db groups).1) x := by
  intro groups
  induction groups with
  | nil => intro db x hx; exact hx
  | cons g rest ih =>
    intro db x hx
    obtain ⟨key, keyOps⟩ := g
    unfold processKeyOps
    split
    · exact hx
    · split
      · exact hx
      · split
        · exact hx
        · split
          · split
            · exact hx
            · exact ih _ x (hasPubKey_write _ _ _ hx)
          · split
            · split
              · exact hx
              · split
                · exact hx
                · exact ih _ x (hasPubKey_revoke _ hx)
            · exact hx

theorem processKeyOps_fst_blockchain (C : CryptoModel) (Q ht : Int) :
    ∀ (groups : List (String × List BlockKeyOp)) (db : MainDb),
    ((processKeyOps C Q ht db groups).1).blockchain = db.blockchain := by
  intro groups
  induction groups with
  | nil => intro db; rfl
  | cons g rest ih =>
    intro db
    obtain ⟨key, keyOps⟩ := g
    unfold processKeyOps
    split
    · rfl
    · split
      · rfl
      · split
        · rfl
        · split
          · split
            · rfl
            · exact ih (dbWritePublicKey C db _ key ht)
          · split
            · split
              · rfl
              · split
                · rfl
                · exact ih (dbRevokePublicKey C db key)
            · rfl

theorem rowEvolved_refl (C : CryptoModel) (r : PubKeyRow) : rowEvolved C r r :=
  Or.inl rfl

theorem pubkeysEvolved_refl (C : CryptoModel) (l : List PubKeyRow) :
    pubkeysEvolved C l l :=
  fun r hr => ⟨r, hr, rowEvolved_refl C r⟩

theorem rowEvolved_trans {C : CryptoModel} {r r1 r2 : PubKeyRow}
    (h1 : rowEvolved C r r1) (h2 : rowEvolved C r1 r2) : rowEvolved C r r2 := by
  rcases h1 with h1 | h1 <;> rcases h2 with h2 | h2 <;> subst h1 <;>
    simp [rowEvolved, h2]

theorem pubkeysEvolved_trans {C : CryptoModel} {a b c : List PubKeyRow}
    (h1 : pubkeysEvolved C a b) (h2 : pubkeysEvolved C b c) :
    pubkeysEvolved C a c := by
  intro r hr
  obtain ⟨r1, hr1, he1⟩ := h1 r hr
  obtain ⟨r2, hr2, he2⟩ := h2 r1 hr1
  exact ⟨r2, hr2, rowEvolved_trans he1 he2⟩

theorem pubkeysEvolved_write (C : CryptoModel) (db : MainDb) (b : Bytes)
    (hs : String) (ht : Int) :
    pubkeysEvolved C db.pubkeys (dbWritePublicKey C db b hs ht).pubkeys :=
  fun r hr => ⟨r, List.mem_append_left _ hr, rowEvolved_refl C r⟩

theorem pubkeysEvolved_revoke (C : CryptoModel) (db : MainDb) (k : String) :
    pubkeysEvolved C db.pubkeys (dbRevokePublicKey C db k).pubkeys := by
  intro r hr
  by_cases hk : r.pubkeyHash = k
  · refine ⟨{ r with timeRevoked := some C.now }, ?_, Or.inr rfl⟩
    have : (if r.pubkeyHash = k then { r with timeRevoked := some C.now } else r) =
        { r with timeRevoked := some C.now } := if_pos hk
    exact this ▸ List.mem_map_of_mem _ hr
  · refine ⟨r, ?_, rowEvolved_refl C r⟩
    have : (if r.pubkeyHash = k then { r with timeRevoked := some C.now } else r) = r :=
      if_neg hk
    exact this ▸ List.mem_map_of_mem _ hr

theorem processKeyOps_fst_evolved (C : CryptoModel) (Q ht : Int) :
    ∀ (groups : List (String × List BlockKeyOp)) (db : MainDb),
    pubkeysEvolved C db.pubkeys ((processKeyOps C Q ht db groups).1).pubkeys := by
  intro groups
  induction groups with
  | nil => intro db; exact pubkeysEvolved_refl C db.pubkeys
  | cons g rest ih =>
    intro db
    obtain ⟨key, keyOps⟩ := g
    unfold processKeyOps
    split
    · exact pubkeysEvolved_refl C db.pubkeys
    · split
      · exact pubkeysEvolved_refl C db.pubkeys
      · rename_i prev hprev
        split
        · exact pubkeysEvolved_refl C db.pubkeys
        · split
          · split
            · exact pubkeysEvolved_refl C db.pubkeys
            · exact pubkeysEvolved_trans (pubkeysEvolved_write C db _ key ht)
                (ih (dbWritePublicKey C db _ key ht))
          · split
            · split
              · exact pubkeysEvolved_refl C db.pubkeys
              · split
                · exact pubkeysEvolved_refl C db.pubkeys
                · exact pubkeysEvolved_trans (pubkeysEvolved_revoke C db key)
                    (ih (dbRevokePublicKey C db key))
            · exact pubkeysEvolved_refl C db.pubkeys

theorem checkAcceptBlock_fst_blockchain (C : CryptoModel) (db : MainDb) (blk : Block) :
    ((checkAcceptBlock C db blk).1).blockchain = db.blockchain := by
  unfold checkAcceptBlock
  split
  · rfl
  · split
    · rfl
    · rename_i prev hprev
      split
      · rfl
      · split
        · rfl
        · split
          · rfl
          · split
            · rfl
            · split
              · rfl
              · split
                · rfl
                · split
                  · rfl
                  · rename_i allKeyOps hkeyops
                    split
                    · rename_i db1 e hproc
                      have := processKeyOps_fst_blockchain C
                        (QuorumForHeight (prev.height + 1)) (prev.height + 1) allKeyOps db
                      rw [hproc] at this
                      exact this
                    · rename_i db1 hproc
                      have := processKeyOps_fst_blockchain C
                        (QuorumForHeight (prev.height + 1)) (prev.height + 1) allKeyOps db
                      rw [hproc] at this
                      exact this

theorem checkAcceptBlock_fst_evolved (C : CryptoModel) (db : MainDb) (blk : Block) :
    pubkeysEvolved C db.pubkeys ((checkAcceptBlock C db blk).1).pubkeys := by
  unfold checkAcceptBlock
  split
  · exact pubkeysEvolved_refl C db.pubkeys
  · split
    · exact pubkeysEvolved_refl C db.pubkeys
    · rename_i prev hprev
      split
      · exact pubkeysEvolved_refl C db.pubkeys
      · split
        · exact pubkeysEvolved_refl C db.pubkeys
        · split
          · exact pubkeysEvolved_refl C db.pubkeys
          · split
            · exact pubkeysEvolved_refl C db.pubkeys
            · split
              · exact pubkeysEvolved_refl C db.pubkeys
              · split
                · exact pubkeysEvolved_refl C db.pubkeys
                · split
                  · exact pubkeysEvolved_refl C db.pubkeys
                  · rename_i allKeyOps hkeyops
                    split
                    · rename_i db1 e hproc
                      have := processKeyOps_fst_evolved C
                        (QuorumForHeight (prev.height + 1)) (prev.height + 1) allKeyOps db
                      rw [hproc] at this
                      exact this
                    · rename_i db1 hproc
                      have := processKeyOps_fst_evolved C
                        (QuorumForHeight (prev.height + 1)) (prev.height + 1) allKeyOps db
                      rw [hproc] at this
                      exact this

theorem processKeyOps_ok_props (C : CryptoModel) (Q ht : Int) :
    ∀ (groups : List (String × List BlockKeyOp)) (db db' : MainDb),
    processKeyOps C Q ht db groups = (db', .ok ()) →
    ∀ g ∈ groups,
      quorumNotMet Q g.2 = false ∧
      (∃ dbi : MainDb,
        pubkeysEvolved C db.pubkeys dbi.pubkeys ∧
        pubkeysEvolved C dbi.pubkeys db'.pubkeys ∧
        verifyKeyOpSignatures C dbi g.1 g.2 = .ok () ∧
        (∀ kop ∈ g.2, hasPubKey dbi kop.signatureKeyHash) ∧
        (∀ kop ∈ g.2, hasPubKey db' kop.signatureKeyHash)) ∧
      (∃ k0, g.2.head? = some k0 ∧ (k0.op = "A" ∨ k0.op = "R")) := by
  intro groups
  induction groups with
  | nil => intro db db' _ g hg; exact absurd hg (List.not_mem_nil g)
  | cons g0 rest ih =>
    intro db db' hp g hg
    obtain ⟨key, keyOps⟩ := g0
    unfold processKeyOps at hp
    split at hp
    · exact absurd hp (by simp)
    · rename_i hquorum
      have hq : quorumNotMet Q keyOps = false := by simpa using hquorum
      split at hp
      · exact absurd hp (by simp)
      · rename_i hver
        split at hp
        · exact absurd hp (by simp)
        · rename_i kop0 hhead
          split at hp
          · rename_i hA
            split at hp
            · exact absurd hp (by simp)
            · rcases List.mem_cons.mp hg with hg0 | hgr
              · subst hg0
                refine ⟨hq, ⟨db, pubkeysEvolved_refl C db.pubkeys, ?_, hver, ?_, ?_⟩,
                  kop0, hhead, Or.inl hA⟩
                · have h3 := processKeyOps_fst_evolved C Q ht rest
                    (dbWritePublicKey C db kop0.publicKeyBytes key ht)
                  rw [hp] at h3
                  exact pubkeysEvolved_trans
                    (pubkeysEvolved_write C db kop0.publicKeyBytes key ht) h3
                · intro kop hmem
                  exact verifyKeyOpSignatures_ok_signers hver kop hmem
                · intro kop hmem
                  have h1 := verifyKeyOpSignatures_ok_signers hver kop hmem
                  have h2 := processKeyOps_fst_hasPubKey C Q ht rest
                    (dbWritePublicKey C db kop0.publicKeyBytes key ht) kop.signatureKeyHash
                    (hasPubKey_write (C := C) kop0.publicKeyBytes key ht h1)
                  rw [hp] at h2
                  exact h2
              · obtain ⟨hq', ⟨dbi, hev1, hev2, hv, hpres1, hpres2⟩, hops⟩ := ih _ _ hp g hgr
                exact ⟨hq', ⟨dbi, pubkeysEvolved_trans
                  (pubkeysEvolved_write C db kop0.publicKeyBytes key ht) hev1,
                  hev2, hv, hpres1, hpres2⟩, hops⟩
          · split at hp
            · rename_i hR
              split at hp
              · exact absurd hp (by simp)
              · rename_i dbpk hget
                split at hp
                · exact absurd hp (by simp)
                · rcases List.mem_cons.mp hg with hg0 | hgr
                  · subst hg0
                    refine ⟨hq, ⟨db, pubkeysEvolved_refl C db.pubkeys, ?_, hver, ?_, ?_⟩,
                      kop0, hhead, Or.inr hR⟩
                    · have h3 := processKeyOps_fst_evolved C Q ht rest
                        (dbRevokePublicKey C db key)
                      rw [hp] at h3
                      exact pubkeysEvolved_trans (pubkeysEvolved_revoke C db key) h3
                    · intro kop hmem
                      exact verifyKeyOpSignatures_ok_signers hver kop hmem
                    · intro kop hmem
                      have h1 := verifyKeyOpSignatures_ok_signers hver kop hmem
                      have h2 := processKeyOps_fst_hasPubKey C Q ht rest
                        (dbRevokePublicKey C db key) kop.signatureKeyHash
                        (hasPubKey_revoke (C := C) key h1)
                      rw [hp] at h2
                      exact h2
                  · obtain ⟨hq', ⟨dbi, hev1, hev2, hv, hpres1, hpres2⟩, hops⟩ := ih _ _ hp g hgr
                    exact ⟨hq', ⟨dbi, pubkeysEvolved_trans
                      (pubkeysEvolved_revoke C db key) hev1,
                      hev2, hv, hpres1, hpres2⟩, hops⟩
            · exact absurd hp (by simp)

/-- C2 (amended): whenever `checkAcceptBlock` accepts a block at height `h`
leaving store `db2`, every key group of the block met the admission quorum
(`¬ len < Q(h)`), and there is an intermediate store `dbi` — the accepted-key
table at the moment the group was processed, an evolution of the initial
store that further evolves into `db2` — against which the whole signature
loop of the group succeeded (`verifyKeyOpSignatures = ok`: each row's signer
was found by `dbGetPublicKey`, its key decoded, and the row's signature over
the target hash verified); every signer hash is present both in `dbi` and in
the final `db2`, and the group's op is `A` or `R`.  Revocation state,
activation height and distinctness of the key-op signers are not checked,
and a block whose group violates any checked condition is rejected. -/
theorem checkAcceptBlock_keyop_admission_checks :
    ∀ (C : CryptoModel) (db : MainDb) (blk : Block) (db2 : MainDb) (h : Int),
    checkAcceptBlock C db blk = (db2, .ok h) →
    ∃ groups, dbGetKeyOps C blk = .ok groups ∧
      ∀ g ∈ groups,
        quorumNotMet (QuorumForHeight h) g.2 = false ∧
        (∃ dbi : MainDb,
          pubkeysEvolved C db.pubkeys dbi.pubkeys ∧
          pubkeysEvolved C dbi.pubkeys db2.pubkeys ∧
          verifyKeyOpSignatures C dbi g.1 g.2 = .ok () ∧
          (∀ kop ∈ g.2, hasPubKey dbi kop.signatureKeyHash) ∧
          (∀ kop ∈ g.2, hasPubKey db2 kop.signatureKeyHash)) ∧
        (∃ k0, g.2.head? = some k0 ∧ (k0.op = "A" ∨ k0.op = "R")) := by
  intro C db blk db2 h hok
  unfold checkAcceptBlock at hok
  split at hok
  · exact absurd hok (by simp)
  · split at hok
    · exact absurd hok (by simp)
    · rename_i prev hprev
      split at hok
      · exact absurd hok (by simp)
      · split at hok
        · exact absurd hok (by simp)
        · split at hok
          · exact absurd hok (by simp)
          · split at hok
            · exact absurd hok (by simp)
            · split at hok
              · exact absurd hok (by simp)
              · split at hok
                · exact absurd hok (by simp)
                · split at hok
                  · exact absurd hok (by simp)
                  · rename_i allKeyOps hkeyops
                    split at hok
                    · exact absurd hok (by simp)
                    · rename_i db1 hproc
                      obtain ⟨hdb, hres⟩ := Prod.mk.inj hok
                      have hh : h = prev.height + 1 := (Except.ok.inj hres).symm
                      refine ⟨allKeyOps, hkeyops, ?_⟩
                      rw [hh, ← hdb]
                      exact processKeyOps_ok_props C _ _ allKeyOps db db1 hproc

/-- Witness for C2's amended theorem: a concrete accepted block with one add
group signed by the active key `1:0a`. -/
theorem checkAcceptBlock_keyop_admission_checks_witness :
    ∃ groups, dbGetKeyOps oracleA blockSignedByRevoked = .ok groups ∧
      ∀ g ∈ groups,
        quorumNotMet (QuorumForHeight 1) g.2 = false ∧
        (∃ dbi : MainDb,
          pubkeysEvolved oracleA storeTwoKeys.pubkeys dbi.pubkeys ∧
          pubkeysEvolved oracleA dbi.pubkeys
            ((checkAcceptBlock oracleA storeTwoKeys blockSignedByRevoked).1).pubkeys ∧
          verifyKeyOpSignatures oracleA dbi g.1 g.2 = .ok () ∧
          (∀ kop ∈ g.2, hasPubKey dbi kop.signatureKeyHash) ∧
          (∀ kop ∈ g.2,
            hasPubKey (checkAcceptBlock oracleA storeTwoKeys blockSignedByRevoked).1
              kop.signatureKeyHash)) ∧
        (∃ k0, g.2.head? = some k0 ∧ (k0.op = "A" ∨ k0.op = "R")) :=
  checkAcceptBlock_keyop_admission_checks oracleA storeTwoKeys blockSignedByRevoked
    (checkAcceptBlock oracleA storeTwoKeys blockSignedByRevoked).1 1 rfl

/-! ### C3: rejection does not roll back earlier key-group mutations -/

/-- C3: admission of a block whose first key group validly adds `1:01` and
whose second group then fails (invalid op `X`) returns an error, yet the
added key `1:01` is still recorded in the accepted-key table afterwards —
there is no rollback, so admission is not atomic. -/
theorem checkAcceptBlock_rejection_keeps_partial_mutation :
    (checkAcceptBlock oracleA storeTwoKeys blockAddThenBadOp).2 = .error "Invalid key op: X" ∧
    storeTwoKeys.pubkeys.any (fun r => r.pubkeyHash = "1:01") = false ∧
    ((checkAcceptBlock oracleA storeTwoKeys blockAddThenBadOp).1).pubkeys.any
      (fun r => r.pubkeyHash = "1:01") = true :=
  ⟨rfl, rfl, rfl⟩

/-! ### C10: checkAcceptBlock never touches the chain index -/

/-- C10: admission never touches the chain index — accept or reject, the
`blockchain` table is exactly as before; the accepted-key table changes only
by rows surviving unchanged or revocation-stamped plus rows the key-group ops
appended; and it is the caller (`handleBlock`) that performs the chain-index
insertion, appending at most one record. -/
theorem checkAcceptBlock_chain_index_frame :
    ∀ (C : CryptoModel) (db : MainDb) (blk : Block),
    ((checkAcceptBlock C db blk).1).blockchain = db.blockchain ∧
    pubkeysEvolved C db.pubkeys ((checkAcceptBlock C db blk).1).pubkeys ∧
    ((handleBlockTail C db blk).blockchain = db.blockchain ∨
      ∃ row, (handleBlockTail C db blk).blockchain = db.blockchain ++ [row]) := by
  intro C db blk
  refine ⟨checkAcceptBlock_fst_blockchain C db blk,
    checkAcceptBlock_fst_evolved C db blk, ?_⟩
  have hframe := checkAcceptBlock_fst_blockchain C db blk
  unfold handleBlockTail
  split
  · rename_i db1 e hcb
    left
    rw [hcb] at hframe
    exact hframe
  · rename_i db1 height hcb
    rw [hcb] at hframe
    split
    · left
      exact hframe
    · rename_i db2 hins
      right
      unfold dbInsertBlock at hins
      split at hins
      · exact absurd hins (by simp)
      · have hdb2 := Except.ok.inj hins
        subst hdb2
        refine ⟨blockchainRowFor { blk.dbb with height := height, timeAccepted := C.now }, ?_⟩
        exact congrArg
          (fun l => l ++ [blockchainRowFor { blk.dbb with height := height, timeAccepted := C.now }])
          hframe

/-- Witness for C10 on concrete inputs (an accepted block). -/
theorem checkAcceptBlock_chain_index_frame_witness :
    ((checkAcceptBlock oracleA storeTwoKeys blockSignedByRevoked).1).blockchain =
      storeTwoKeys.blockchain ∧
    (∃ r2 ∈ ((checkAcceptBlock oracleA storeTwoKeys blockSignedByRevoked).1).pubkeys,
      rowEvolved oracleA fixCreatorRow r2) :=
  ⟨(checkAcceptBlock_chain_index_frame oracleA storeTwoKeys blockSignedByRevoked).1,
    (checkAcceptBlock_chain_index_frame oracleA storeTwoKeys blockSignedByRevoked).2.1
      fixCreatorRow (by simp [storeTwoKeys])⟩

/-! ### C6: key-op metadata decoding -/

/-- C6: a `_keys` row with non-empty metadata makes `dbGetKeyOps` fail even
when the JSON is well-formed, because the decode target is a map value rather
than a pointer (`InvalidUnmarshalError`); by contrast `dbGetPublicKey`, whose
decode target is a proper pointer, decodes the same metadata fine. -/
theorem dbGetKeyOps_fails_on_any_metadata :
    oracleA.jsonParseStrMap "\x7b\x7d" = some [] ∧
    dbGetKeyOps oracleA blockWithMetadata =
      .error "json: Unmarshal(non-pointer map[string]string)" ∧
    dbGetPublicKey oracleA storeMetaPub "1:0c" =
      .ok { publicKeyHash := "1:0c", publicKeyBytes := [12], state := "A", timeAdded := 0,
            isRevoked := false, timeRevoked := none, addBlockHeight := 0, metadata := [] } :=
  ⟨rfl, rfl, rfl⟩

/-! ### C9: the canonical public-key hash -/

theorem hexCharOfNat_mem_alphabet (n : Nat) :
    hexCharOfNat n ∈ ("0123456789abcdef").data := by
  unfold hexCharOfNat
  rcases Nat.lt_or_ge n 16 with h | h
  · interval_cases n <;> decide
  · rw [List.getD_eq_default]
    · decide
    · calc ("0123456789abcdef").data.length = 16 := by decide
        _ ≤ n := h

theorem hexEncode_mem_alphabet :
    ∀ (b : Bytes), ∀ c ∈ (hexEncode b).data, c ∈ ("0123456789abcdef").data := by
  intro b
  induction b with
  | nil => intro c hc; exact absurd hc (List.not_mem_nil c)
  | cons x rest ih =>
    intro c hc
    have hd : (hexEncode (x :: rest)).data =
        hexCharOfNat (x / 16) :: hexCharOfNat (x % 16) :: (hexEncode rest).data := rfl
    rw [hd] at hc
    rcases List.mem_cons.mp hc with hc | hc
    · exact hc ▸ hexCharOfNat_mem_alphabet (x / 16)
    · rcases List.mem_cons.mp hc with hc | hc
      · exact hc ▸ hexCharOfNat_mem_alphabet (x % 16)
      · exact ih c hc

/-- C9: the canonical public-key hash is the string `"1:"` followed by the
(lowercase) hex encoding of the SHA-256 of the DER (PKIX) encoding of the
public key; every character after the prefix comes from the lowercase hex
alphabet. -/
theorem pubkey_hash_canonical_form :
    ∀ (C : CryptoModel) (b : Bytes) (key : Nat),
    getPubKeyHash C b = "1:" ++ hexEncode (C.sha256 b) ∧
    cryptoMustGetPublicKeyHash C key = "1:" ++ hexEncode (C.sha256 (C.marshalPKIX key)) ∧
    (∀ c ∈ (hexEncode (C.sha256 (C.marshalPKIX key))).data,
      c ∈ ("0123456789abcdef").data) :=
  fun C b key => ⟨rfl, rfl, hexEncode_mem_alphabet (C.sha256 (C.marshalPKIX key))⟩

/-- Witness for C9 with the concrete crypto model at key 1. -/
theorem pubkey_hash_canonical_form_witness :
    cryptoMustGetPublicKeyHash oracleA 1 = "1:" ++ hexEncode (oracleA.sha256 (oracleA.marshalPKIX 1)) ∧
    '0' ∈ (hexEncode (oracleA.sha256 (oracleA.marshalPKIX 1))).data ∧
    '0' ∈ ("0123456789abcdef").data :=
  ⟨(pubkey_hash_canonical_form oracleA [] 1).2.1,
    by decide,
    (pubkey_hash_canonical_form oracleA [] 1).2.2 '0' (by decide)⟩

/-! ### C7: which received lines terminate a session -/

/-- C7 counterexample: a well-formed line whose `root` ("x") differs from the
chain's genesis hash ("g") is ignored — `handleConnectionLine` skips it and
the session does not terminate, contradicting the claim that a wrong root
terminates the session. -/
theorem wrong_root_ignored_not_terminating :
    parseFix "L" = some [("root", .str "x"), ("msg", .str "hello")] ∧
    StrIfMap.GetString [("root", .str "x"), ("msg", .str "hello")] "root" = .ok "x" ∧
    "x" ≠ "g" ∧
    handleConnectionLine "g" parseFix "L" = .ignored ∧
    sessionLineTerminates "g" parseFix "L" = false :=
  ⟨rfl, rfl, by decide, rfl, rfl⟩

/-- C7 (amended): a session terminates on a malformed JSON line, on a line
missing or ill-typing the `root` field, and on a delivered matching-root
message that either carries a string `_error` field or lacks a usable `msg`
field; a message whose root differs from the genesis hash is ignored and the
session stays up. -/
theorem session_line_termination :
    ∀ (g : String) (parse : String → Option StrIfMap) (line : String),
    (parse line = none → sessionLineTerminates g parse line = true) ∧
    (∀ msg e, parse line = some msg → StrIfMap.GetString msg "root" = .error e →
      sessionLineTerminates g parse line = true) ∧
    (∀ msg root, parse line = some msg → StrIfMap.GetString msg "root" = .ok root →
      root ≠ g → sessionLineTerminates g parse line = false) ∧
    (∀ msg eStr, parse line = some msg → StrIfMap.GetString msg "root" = .ok g →
      StrIfMap.GetString msg "_error" = .ok eStr →
      sessionLineTerminates g parse line = true) ∧
    (∀ msg e, parse line = some msg → StrIfMap.GetString msg "root" = .ok g →
      StrIfMap.GetString msg "msg" = .error e →
      sessionLineTerminates g parse line = true) := by
  intro g parse line
  refine ⟨?_, ?_, ?_, ?_, ?_⟩
  · intro hp
    simp only [sessionLineTerminates, handleConnectionLine, hp]
  · intro msg e hp hroot
    simp only [sessionLineTerminates, handleConnectionLine, hp, hroot]
  · intro msg root hp hroot hne
    simp only [sessionLineTerminates, handleConnectionLine, hp, hroot, ne_eq, hne,
      not_false_eq_true, if_true]
  · intro msg eStr hp hroot herr
    simp only [sessionLineTerminates, handleConnectionLine, hp, hroot, ne_eq,
      not_true_eq_false, if_false, herr]
  · intro msg e hp hroot hmsg
    simp only [sessionLineTerminates, handleConnectionLine, hp, hroot, ne_eq,
      not_true_eq_false, if_false, hmsg]
    cases StrIfMap.GetString msg "_error" with
    | ok a => rfl
    | error a => rfl

/-- Witness for C7's amended theorem: an unparsable line terminates. -/
theorem session_line_termination_witness :
    (fun _ : String => (none : Option StrIfMap)) "x" = none ∧
    sessionLineTerminates "g" (fun _ : String => (none : Option StrIfMap)) "x" = true :=
  ⟨rfl, (session_line_termination "g" (fun _ => none) "x").1 rfl⟩

/-! ### C8: loopback and duplicate peer ids in handleMsgHello -/

/-- C8: after a well-formed hello carrying peer id `pid`, the handler leaves
the address unchanged; if `pid` equals our own ephemeral id the session is
closed and its address lands in the bad-peer set; and if another live session
already holds the same peer id, the newly greeted session is closed — at most
one session per peer id survives. -/
theorem handleMsgHello_loopback_and_dup :
    ∀ (ourID ourHeight : Int) (st : PeersState) (self : PeerConn) (msg : StrIfMap)
      (ver : String) (ch pid : Int),
    StrIfMap.GetString msg "version" = .ok ver →
    StrIfMap.GetInt msg "chain_height" = .ok ch →
    (if self.peerID = 0 then StrIfMap.GetInt64 msg "p2p_id" else .ok self.peerID) = .ok pid →
    ((handleMsgHello ourID ourHeight st self msg).self.address = self.address ∧
     (handleMsgHello ourID ourHeight st self msg).self.peerID = pid) ∧
    (pid = ourID →
      (handleMsgHello ourID ourHeight st self msg).closed = true ∧
      self.address ∈ (handleMsgHello ourID ourHeight st self msg).badPeers) ∧
    ((∃ p ∈ st.peers, p.peerID = pid ∧ p.connId ≠ self.connId) →
      (handleMsgHello ourID ourHeight st self msg).closed = true) := by
  intro ourID ourHeight st self msg ver ch pid hver hch hpid
  unfold handleMsgHello
  simp only [hver, hch]
  simp only [hpid]
  refine ⟨?_, ?_, ?_⟩
  · constructor
    · split
      · rfl
      · rfl
    · split
      · rfl
      · rfl
  · intro hpidour
    split
    · refine ⟨rfl, List.mem_append_right _ ?_⟩
      exact List.mem_singleton.mpr rfl
    · rename_i hdup
      exact absurd (Or.inr hpidour) hdup
  · rintro ⟨p, hp, hpeq, hpne⟩
    split
    · rfl
    · rename_i hdup
      exfalso
      apply hdup
      left
      rw [List.any_eq_true]
      exact ⟨p, hp, by simp [hpeq, hpne]⟩

/-- Witness for C8: the freshly greeted session duplicating the live session
with peer id 9 is closed. -/
theorem handleMsgHello_loopback_and_dup_witness :
    (handleMsgHello 5 0 fixPeersState fixPeerNew helloMsgFix).closed = true :=
  (handleMsgHello_loopback_and_dup 5 0 fixPeersState fixPeerNew helloMsgFix "v" 3 9
    rfl rfl rfl).2.2 ⟨fixPeerOld, by simp [fixPeersState], rfl, by decide⟩

end Daisy
